import Mathlib

/-!
Verification of the Predictive Maintenance Intelligence Hub (Gradio app).

Shallow embedding of the role-gated page load (`app.py::on_page_load`),
the chat handlers (`components/chat_tab.py`), the engine maintenance
schedule and rolling band (`components/engine_tab.py`), and the heater
health score (`components/heater_tab.py` / `components/dashboard_tab.py`).

Conventions of the embedding:
* Python numbers are modelled exactly: ints as `Int`/`Nat`, floating point
  values as exact rationals (`Rat`), with Python `round` modelled as
  round-half-to-even on the exact value.
* Dictionaries parsed from YAML are modelled by association lists; a key
  that may be absent is an `Option`.
* A Python function whose body is wrapped in `try/except` that swallows
  the exception is modelled as a total function whose value on the error
  paths is the value produced by the `except` branch.
-/

namespace PMHub

/-! ### Policy gate - `app.py::on_page_load`

`_TAB_NAMES` is the list of regular tabs; the page-load handler returns a
visibility flag for each of them plus one for the Request Access tab. -/

/-- The six regular tab names (`app.py` line 82). -/
def TAB_NAMES : List String :=
  ["Overview", "CNC Analysis", "Engine Health", "Electrical Monitor", "Audit Log", "Admin"]

/-- The value of a role's `tabs` key in `governance/roles.yaml`: either a
YAML string (for example `"all"`) or a YAML list of tab names. -/
inductive TabsVal where
  | strVal (s : String)
  | listVal (l : List String)
deriving DecidableEq

/-- One role entry of the policy file; the `tabs` key may be absent
(`role_cfg.get("tabs", [])`). -/
structure RoleCfg where
  tabs : Option TabsVal
deriving DecidableEq

/-- The parsed policy document; the `roles` key may be absent
(`config.get("roles", {})`, and `config["roles"]` raising `KeyError`). -/
structure PolicyDoc where
  roles : Option (List (String × RoleCfg))
deriving DecidableEq

/-- The authenticated identity as returned by
`auth_service.get_user_from_request`; only the `role` field is read by the
gate. -/
structure Identity where
  role : String
deriving DecidableEq

/-- The visibility updates produced by `on_page_load`: one flag per regular
tab (in `TAB_NAMES` order) and one for the Request Access tab. -/
structure PageVis where
  regular : List Bool
  request : Bool
deriving DecidableEq

/-- Does the character list `hay` start with `needle`? Helper for the
Python substring test. -/
def startsWithChars : List Char → List Char → Bool
  | _, [] => true
  | [], _ :: _ => false
  | a :: as, b :: bs => a = b && startsWithChars as bs

/-- Python `needle in hay` on strings: substring containment. -/
def pyStrIn (needle hay : List Char) : Bool :=
  startsWithChars hay needle ||
    match hay with
    | [] => false
    | _ :: t => pyStrIn needle t

/-- `_vis(name)` in `on_page_load`: visible when `allowed` is the string
`"all"`; otherwise Python `name in allowed`, which is list membership for a
list and substring containment for any other string. -/
def visOf (allowed : TabsVal) (name : String) : Bool :=
  match allowed with
  | .strVal s => if s = "all" then true else pyStrIn name.data s.data
  | .listVal l => l.contains name

/-- Resolution of the `allowed` tabs value in `on_page_load` lines 187-193:
a missing or unparseable `roles.yaml` is `policy = none` (the `except`
branch yields `[]`); a document without a `roles` key raises `KeyError` in
the eagerly evaluated default argument `config["roles"].get("no_access", {})`,
also yielding `[]`; otherwise the role's entry is looked up with fallback to
the `no_access` entry, and its `tabs` key defaults to the empty list. -/
def resolveAllowed (policy : Option PolicyDoc) (role : String) : TabsVal :=
  match policy with
  | none => .listVal []
  | some cfg =>
    match cfg.roles with
    | none => .listVal []
    | some roles =>
      let fallback : RoleCfg := (List.lookup "no_access" roles).getD ⟨none⟩
      let roleCfg : RoleCfg := (List.lookup role roles).getD fallback
      roleCfg.tabs.getD (.listVal [])

/-- `app.py::on_page_load` restricted to the tab-visibility updates it
returns: an absent identity gets role `"no_access"`; the literal role
`"no_access"` hides all six regular tabs and shows Request Access; every
other role shows the regular tabs permitted by `allowed` and hides Request
Access. -/
def on_page_load (user : Option Identity) (policy : Option PolicyDoc) : PageVis :=
  let role := match user with
    | some u => u.role
    | none => "no_access"
  let allowed := resolveAllowed policy role
  if role = "no_access" then
    { regular := List.replicate TAB_NAMES.length false, request := true }
  else
    { regular := TAB_NAMES.map (visOf allowed), request := false }

/-- A concrete policy document used in counterexamples: a `viewer` role
that may see Overview, and a `no_access` role with an empty tab list. -/
def samplePolicy : PolicyDoc :=
  { roles := some
      [("viewer", { tabs := some (.listVal ["Overview"]) }),
       ("no_access", { tabs := some (.listVal []) })] }

end PMHub

namespace PMHub

/-- C1 counterexample: with a policy defining `viewer` and `no_access`, an
identity with the unknown role `"ghost"` resolves with every regular view
hidden but the Request Access view also hidden (`request = false`), whereas
the `"no_access"` role gets `request = true` — so an unknown role is NOT
resolved the same as `no_access`, contradicting the claim. -/
theorem C1_counterexample :
    on_page_load (some ⟨"ghost"⟩) (some samplePolicy) =
      { regular := [false, false, false, false, false, false], request := false } ∧
    on_page_load (some ⟨"no_access"⟩) (some samplePolicy) =
      { regular := [false, false, false, false, false, false], request := true } := by
  constructor <;> rfl

/-- C1 (amended): for an identity whose role is not `"no_access"` and is not
a key of the policy's roles mapping, the regular views are resolved from the
`no_access` entry's `tabs` value (defaulting to the empty list), but the
Request Access view is hidden, not shown: only the literal role string
`"no_access"` (or an absent identity) gets the request-access view. -/
theorem C1_amended_thm (roles : List (String × RoleCfg)) (u : Identity)
    (h1 : u.role ≠ "no_access") (h2 : List.lookup u.role roles = none) :
    on_page_load (some u) (some ⟨some roles⟩) =
      { regular := TAB_NAMES.map
          (visOf ((((List.lookup "no_access" roles).getD ⟨none⟩).tabs).getD (.listVal []))),
        request := false } := by
  simp [on_page_load, resolveAllowed, h1, h2]

/-- C1 witness: the amended theorem applied to the concrete unknown role
`"ghost"` and the sample policy. -/
theorem C1_amended_witness :
    on_page_load (some ⟨"ghost"⟩)
      (some ⟨some [("viewer", ⟨some (.listVal ["Overview"])⟩),
                   ("no_access", ⟨some (.listVal [])⟩)]⟩) =
      { regular := [false, false, false, false, false, false], request := false } := by
  have h := C1_amended_thm
    [("viewer", ⟨some (.listVal ["Overview"])⟩), ("no_access", ⟨some (.listVal [])⟩)]
    ⟨"ghost"⟩ (by decide) (by rfl)
  rw [h]; rfl

/-- C2: for an absent identity or an identity with role `"no_access"`, all
six regular tabs are made invisible and only the Request Access tab is made
visible, for every policy document whatsoever (the branch never consults the
resolved `tabs` value). -/
theorem C2_no_access_gate (user : Option Identity) (policy : Option PolicyDoc)
    (h : user = none ∨ ∃ u, user = some u ∧ u.role = "no_access") :
    on_page_load user policy = { regular := List.replicate 6 false, request := true } := by
  rcases h with h | ⟨u, rfl, hr⟩
  · subst h; rfl
  · simp [on_page_load, hr]; rfl

/-- C2 witness: the theorem applied to an anonymous request and the sample
policy. -/
theorem C2_no_access_gate_witness :
    on_page_load none (some samplePolicy) =
      { regular := List.replicate 6 false, request := true } :=
  C2_no_access_gate none (some samplePolicy) (Or.inl rfl)

/-- C3 counterexample: with a missing/unparseable policy, an identity with
role `"viewer"` resolves to zero visible regular views (fail closed holds)
but the Request Access view is hidden too (`request = false`), contradicting
the claim that the request-access view is still rendered for every
identity. -/
theorem C3_counterexample :
    (on_page_load (some ⟨"viewer"⟩) none).regular = List.replicate 6 false ∧
    (on_page_load (some ⟨"viewer"⟩) none).request = false := by
  constructor <;> rfl

/-- C3 (amended): when the policy resource is missing/unparseable
(`policy = none`) or lacks the `roles` key, the gate resolves to zero
visible regular views and returns normally (it is a total function: the
`except` branch swallows the error); the Request Access view is visible
exactly when the identity is absent or its role is the literal
`"no_access"` — for any other role it is hidden as well. -/
theorem C3_amended_thm (user : Option Identity) (policy : Option PolicyDoc)
    (h : policy = none ∨ ∃ cfg, policy = some cfg ∧ cfg.roles = none) :
    (on_page_load user policy).regular = List.replicate 6 false ∧
    ((on_page_load user policy).request = true ↔
      user = none ∨ ∃ u, user = some u ∧ u.role = "no_access") := by
  have hallow : ∀ r, resolveAllowed policy r = .listVal [] := by
    rcases h with rfl | ⟨cfg, rfl, hc⟩
    · intro r; rfl
    · intro r; simp [resolveAllowed, hc]
  cases user with
  | none => exact ⟨rfl, by simp [on_page_load]⟩
  | some u =>
    by_cases hu : u.role = "no_access"
    · refine ⟨by simp [on_page_load, hu]; rfl, ?_⟩
      constructor
      · intro _; exact Or.inr ⟨u, rfl, hu⟩
      · intro _; simp [on_page_load, hu]
    · refine ⟨?_, ?_⟩
      · simp [on_page_load, hu, hallow]
        rfl
      · simp [on_page_load, hu]

/-- C3 witness: the amended theorem applied to the identity with role
`"viewer"` and a missing policy. -/
theorem C3_amended_witness :
    (on_page_load (some ⟨"viewer"⟩) none).regular = List.replicate 6 false ∧
    ((on_page_load (some ⟨"viewer"⟩) none).request = true ↔
      (some (Identity.mk "viewer") : Option Identity) = none ∨
        ∃ u, (some (Identity.mk "viewer") : Option Identity) = some u ∧ u.role = "no_access") :=
  C3_amended_thm (some ⟨"viewer"⟩) none (Or.inl rfl)

end PMHub

namespace PMHub

/-! ### Feedback handler - `components/chat_tab.py::on_feedback` -/

/-- One entry of the Gradio chat history (`type="messages"` format). -/
structure ChatMsg where
  role : String
  content : String
deriving DecidableEq

/-- The shape of `like_data.index`: a tuple/list of ints, a scalar that
`int()` accepts (an int or a numeric string), or `None`. -/
inductive LikeIndex where
  | paired (l : List Int)
  | scalar (n : Int)
  | absent
deriving DecidableEq

/-- The audit event written by `audit_service.log_event(action_type="FEEDBACK", ...)`,
restricted to the fields the claim is about (`query_text=conv_id or ""`,
`message_index`, `liked`). -/
structure FeedbackEvent where
  conversationId : String
  messageIndex : Int
  liked : Bool
deriving DecidableEq

/-- Index normalisation in `on_feedback` lines 202-207: a tuple/list takes
its first element, an empty one defaults to 0, a scalar is `int(idx)`, and
`None` defaults to 0. -/
def resolveLikeIndex : LikeIndex → Int
  | .paired [] => 0
  | .paired (x :: _) => x
  | .scalar n => n
  | .absent => 0

/-- `chat_tab.py::on_feedback` modelled as the list of audit events it
produces: after index normalisation, an empty history, a negative index or
an index `≥ len(history)` returns without logging; a message whose role is
not `"assistant"` returns without logging; otherwise exactly one FEEDBACK
event is appended. The lookup is written with `getElem?`; its `none` branch
is unreachable under the bounds guard. The whole body is inside
`try/except`, so the handler never raises; the model is a total function. -/
def on_feedback (history : List ChatMsg) (index : LikeIndex) (liked : Bool)
    (convId : Option String) : List FeedbackEvent :=
  let idx := resolveLikeIndex index
  if history.isEmpty ∨ idx < 0 ∨ (history.length : Int) ≤ idx then []
  else
    match history[idx.toNat]? with
    | none => []
    | some msg =>
      if msg.role = "assistant" then [⟨convId.getD "", idx, liked⟩] else []

/-- C6: the handler resolves a paired/scalar/absent index (absent and empty
pairs default to 0) and logs exactly one FEEDBACK event carrying the
conversation id, the resolved index and the liked boolean precisely when
the resolved index is nonnegative, in bounds of the history, and the
message there is assistant-authored; in every other case (user-authored
message, out of bounds, empty history) it logs nothing, and being a total
function it never raises. -/
theorem C6_feedback_gate (history : List ChatMsg) (index : LikeIndex) (liked : Bool)
    (convId : Option String) :
    (on_feedback history index liked convId =
      match history[(resolveLikeIndex index).toNat]? with
      | some msg =>
        if 0 ≤ resolveLikeIndex index ∧ msg.role = "assistant"
        then [⟨convId.getD "", resolveLikeIndex index, liked⟩] else []
      | none => []) ∧
    resolveLikeIndex .absent = 0 ∧ resolveLikeIndex (.paired []) = 0 := by
  refine ⟨?_, rfl, rfl⟩
  unfold on_feedback
  by_cases h1 : resolveLikeIndex index < 0
  · rw [if_pos (Or.inr (Or.inl h1))]
    cases hm : history[(resolveLikeIndex index).toNat]? with
    | none => rfl
    | some msg => simp [not_le.mpr h1]
  · push_neg at h1
    by_cases h2 : (history.length : Int) ≤ resolveLikeIndex index
    · rw [if_pos (Or.inr (Or.inr h2))]
      have hlen : history.length ≤ (resolveLikeIndex index).toNat := by omega
      rw [List.getElem?_eq_none hlen]
    · have hlt : (resolveLikeIndex index).toNat < history.length := by omega
      have hne : ¬ history.isEmpty := by
        cases history with
        | nil => simp at hlt
        | cons a t => simp
      rw [if_neg (by push_neg; exact ⟨fun h => hne h, h1, lt_of_not_le h2⟩)]
      rw [List.getElem?_eq_getElem hlt]
      simp [h1]

/-- C6 witness: concrete runs of the handler through the theorem - a liked
assistant message at paired index 1 logs one event. -/
theorem C6_feedback_gate_witness :
    on_feedback [⟨"user", "q"⟩, ⟨"assistant", "a"⟩] (.paired [1, 0]) true (some "conv-7") =
      [⟨"conv-7", 1, true⟩] := by
  have h := (C6_feedback_gate [⟨"user", "q"⟩, ⟨"assistant", "a"⟩]
    (.paired [1, 0]) true (some "conv-7")).1
  rw [h]; rfl

/-! ### Heater health score - `components/heater_tab.py::load_data` lines
206-219, identically `components/dashboard_tab.py::load_charts` lines
250-261. -/

/-- Arithmetic mean of a rational series (pandas `.mean()` on a nonempty
group; on the empty list this evaluates to `0/0 = 0` in `Rat`, a case the
grouped code never produces). -/
def mean (xs : List ℚ) : ℚ := xs.sum / xs.length

/-- Python `round()` to the nearest integer, ties to even, on the exact
rational value. -/
def pyRoundInt (q : ℚ) : ℤ :=
  let n := ⌊q⌋
  let r := q - n
  if r < 1 / 2 then n
  else if 1 / 2 < r then n + 1
  else if n % 2 = 0 then n else n + 1

/-- Python `round(x, 1)` on the exact rational value. -/
def pyRound1 (q : ℚ) : ℚ := pyRoundInt (q * 10) / 10

/-- pandas `DataFrame.head(n)`: the first `n` rows. -/
def pdHead (n : Nat) (xs : List ℚ) : List ℚ := xs.take n

/-- pandas `DataFrame.tail(n)`: the last `n` rows. -/
def pdTail (n : Nat) (xs : List ℚ) : List ℚ := xs.drop (xs.length - n)

/-- The per-asset health score of `heater_tab.py::load_data` /
`dashboard_tab.py::load_charts`: `baseline = head(10).mean()`,
`recent = tail(10).mean()`, `score = round(recent/baseline*100, 1)` when
`baseline > 0`, else `0`. Input is the asset's `avg_voltage` series already
sorted by cycle. -/
def healthScore (xs : List ℚ) : ℚ :=
  let baseline := mean (pdHead 10 xs)
  let recent := mean (pdTail 10 xs)
  if 0 < baseline then pyRound1 (recent / baseline * 100) else 0

/-- C4: the health score uses the first 10 points as baseline and the last
10 as recent; for a series shorter than 10 points both windows are the
whole series (they coincide, hence overlap); the score is
`round(recent/baseline*100, 1)` (half-to-even) when `baseline > 0` and `0`
otherwise. -/
theorem C4_health_score (xs : List ℚ) :
    (xs.length < 10 → pdHead 10 xs = xs ∧ pdTail 10 xs = xs) ∧
    (0 < mean (xs.take 10) →
      healthScore xs = pyRound1 (mean (xs.drop (xs.length - 10)) / mean (xs.take 10) * 100)) ∧
    (¬ 0 < mean (xs.take 10) → healthScore xs = 0) := by
  refine ⟨fun h => ⟨?_, ?_⟩, fun h => ?_, fun h => ?_⟩
  · exact List.take_of_length_le (by omega)
  · have h0 : xs.length - 10 = 0 := by omega
    simp [pdTail, h0]
  · simp only [healthScore, pdHead, pdTail]
    rw [if_pos h]
  · simp only [healthScore, pdHead, pdTail]
    rw [if_neg h]

/-- C4 witness: the theorem applied to the three-point series `[1, 2, 3]`,
where both windows are the whole series and the score is 100. -/
theorem C4_health_score_witness :
    healthScore [1, 2, 3] = 100 ∧ pdTail 10 [(1 : ℚ), 2, 3] = [1, 2, 3] := by
  constructor
  · have h := (C4_health_score [1, 2, 3]).2.1 (by norm_num [mean])
    rw [h]; norm_num [mean, pyRound1, pyRoundInt]
  · exact ((C4_health_score [1, 2, 3]).1 (by norm_num)).2

end PMHub

namespace PMHub

/-! ### Maintenance schedule - `components/engine_tab.py::generate_schedule` -/

/-- One row of `db_service.get_engine_latest_status`: the fields
`generate_schedule` reads. RUL is an integer cycle count. -/
structure EngineRow where
  engine_id : Int
  status : String
  remaining_rul : Int
deriving DecidableEq

/-- One row of the schedule DataFrame. The scheduled date
`today + timedelta(days=k)` is modelled by its day offset `k` from today. -/
structure SchedTask where
  engineId : Int
  currentStatus : String
  rulCycles : Int
  schedOffsetDays : Int
  priority : String
  action : String
deriving DecidableEq

/-- The result of `generate_schedule`: either the accumulated task rows or
the literal sentinel row
`{"Engine ID": "—", "note": "All engines healthy — no urgent maintenance"}`
emitted when no engine qualifies. -/
inductive ScheduleResult where
  | tasks (l : List SchedTask)
  | nothingScheduledSentinel
deriving DecidableEq

/-- The per-row body of the loop in `generate_schedule` lines 388-406:
clamp negative RUL to 0; `rul <= 30` gives offset `max(1, int(rul*0.5))`
and priority URGENT (`rul <= 15`) or HIGH; `rul <= 100` gives offset
`int(rul*0.6)` and MEDIUM; larger RUL is skipped (`continue`). For the
integer RUL values involved, `int(rul*0.5)` is `rul / 2` and
`int(rul*0.6)` is `3 * rul / 5` (the float products round to the exact
decimal values for this range). -/
def scheduleRow (row : EngineRow) : Option SchedTask :=
  let rul := if row.remaining_rul < 0 then 0 else row.remaining_rul
  if rul ≤ 30 then
    some ⟨row.engine_id, row.status, rul, max 1 (rul / 2),
          if rul ≤ 15 then "URGENT" else "HIGH", "Preventive Maintenance Inspection"⟩
  else if rul ≤ 100 then
    some ⟨row.engine_id, row.status, rul, 3 * rul / 5, "MEDIUM",
          "Preventive Maintenance Inspection"⟩
  else none

/-- Spec-side counterpart of `scheduleRow`, written with the spec's own
formulas: RUL clamped to `≥ 0`, offsets `max(1, ⌊rul*0.5⌋)` and `⌊rul*0.6⌋`
as exact rational floors. Used only to compare against the code-derived
definition. -/
def specScheduleTask (row : EngineRow) : Option SchedTask :=
  let rul := max row.remaining_rul 0
  if rul ≤ 30 then
    some ⟨row.engine_id, row.status, rul, max 1 ⌊(rul : ℚ) * (0.5 : ℚ)⌋,
          if rul ≤ 15 then "URGENT" else "HIGH", "Preventive Maintenance Inspection"⟩
  else if rul ≤ 100 then
    some ⟨row.engine_id, row.status, rul, ⌊(rul : ℚ) * (0.6 : ℚ)⌋, "MEDIUM",
          "Preventive Maintenance Inspection"⟩
  else none

/-- `engine_tab.py::generate_schedule`: one task per qualifying engine, in
input order; if none qualify, the explicit sentinel row instead of an empty
table. -/
def generate_schedule (rows : List EngineRow) : ScheduleResult :=
  let tasks := rows.filterMap scheduleRow
  if tasks.isEmpty then .nothingScheduledSentinel else .tasks tasks

/-- The code's integer offsets coincide with the spec's rational floors. -/
theorem scheduleRow_eq_spec (row : EngineRow) : scheduleRow row = specScheduleTask row := by
  have h05 : ∀ r : ℤ, ⌊(r : ℚ) * (0.5 : ℚ)⌋ = r / 2 := fun r => by
    rw [show ((r : ℤ) : ℚ) * (0.5 : ℚ) = ((r : ℤ) : ℚ) / ((2 : ℕ) : ℚ) by push_cast; ring]
    exact Rat.floor_intCast_div_natCast r 2
  have h06 : ∀ r : ℤ, ⌊(r : ℚ) * (0.6 : ℚ)⌋ = 3 * r / 5 := fun r => by
    rw [show ((r : ℤ) : ℚ) * (0.6 : ℚ) = ((3 * r : ℤ) : ℚ) / ((5 : ℕ) : ℚ) by push_cast; ring]
    exact Rat.floor_intCast_div_natCast (3 * r) 5
  have hclamp : (if row.remaining_rul < 0 then 0 else row.remaining_rul) =
      max row.remaining_rul 0 := by split <;> omega
  simp only [scheduleRow, specScheduleTask, hclamp, h05, h06]

/-- A row produces no task exactly when its clamped RUL exceeds 100. -/
theorem specScheduleTask_none_iff (row : EngineRow) :
    specScheduleTask row = none ↔ 100 < max row.remaining_rul 0 := by
  unfold specScheduleTask
  by_cases h1 : max row.remaining_rul 0 ≤ 30 <;>
    by_cases h2 : max row.remaining_rul 0 ≤ 100 <;>
      simp [h1, h2] <;> omega

/-- C5: the maintenance schedule clamps RUL to `≥ 0` and, per asset,
schedules `max(1, ⌊rul*0.5⌋)` days out with priority URGENT (`rul ≤ 15`) or
HIGH (`rul ≤ 30`), or `⌊rul*0.6⌋` days out with priority MEDIUM
(`30 < rul ≤ 100`), excluding assets with `rul > 100`; when no asset
qualifies the result is the explicit nothing-scheduled sentinel rather than
an empty collection. The boundary examples `rul = 0` (URGENT, offset 1),
`rul = 31` (MEDIUM, offset 18) and `rul = 150` (excluded) are included. -/
theorem C5_maintenance_schedule (rows : List EngineRow) :
    (generate_schedule rows =
      if ∀ r ∈ rows, 100 < max r.remaining_rul 0
      then ScheduleResult.nothingScheduledSentinel
      else ScheduleResult.tasks (rows.filterMap specScheduleTask)) ∧
    scheduleRow ⟨1, "Critical", 0⟩ =
      some ⟨1, "Critical", 0, 1, "URGENT", "Preventive Maintenance Inspection"⟩ ∧
    scheduleRow ⟨2, "Warning", 31⟩ =
      some ⟨2, "Warning", 31, 18, "MEDIUM", "Preventive Maintenance Inspection"⟩ ∧
    scheduleRow ⟨3, "Healthy", 150⟩ = none := by
  refine ⟨?_, by decide, by decide, by decide⟩
  unfold generate_schedule
  rw [show scheduleRow = specScheduleTask from funext scheduleRow_eq_spec]
  by_cases hall : ∀ r ∈ rows, 100 < max r.remaining_rul 0
  · rw [if_pos hall]
    have hnil : rows.filterMap specScheduleTask = [] :=
      List.filterMap_eq_nil_iff.mpr fun r hr => (specScheduleTask_none_iff r).mpr (hall r hr)
    simp [hnil]
  · rw [if_neg hall]
    have hne : rows.filterMap specScheduleTask ≠ [] := by
      intro hnil
      exact hall fun r hr =>
        (specScheduleTask_none_iff r).mp (List.filterMap_eq_nil_iff.mp hnil r hr)
    simp [List.isEmpty_iff, hne]

end PMHub

namespace PMHub

/-! ### Rolling deviation band - `components/engine_tab.py::render_rolling`
lines 103-106: `rm = x.rolling(window, min_periods=1).mean()`,
`rstd = x.rolling(window, min_periods=1).std().fillna(0)`,
`upper = rm + 2*rstd`, `lower = rm - 2*rstd`, per engine over the
cycle-sorted series. -/

/-- The pandas rolling window ending at position `i` with `min_periods=1`:
the last `min(w, i+1)` points up to and including `i`. -/
def rollingWindow (w : Nat) (xs : List ℚ) (i : Nat) : List ℚ :=
  (xs.take (i + 1)).drop (i + 1 - w)

/-- Rolling mean with `min_periods=1`: one value per input point. -/
def rollingMean (w : Nat) (xs : List ℚ) : List ℚ :=
  (List.range xs.length).map fun i => mean (rollingWindow w xs i)

/-- Sample variance (`ddof=1`) of a window; a window with a single
observation has undefined sample variance (pandas yields `NaN`), which the
code's `.fillna(0)` turns into `0`. -/
def sampleVar (l : List ℚ) : ℚ :=
  if l.length ≤ 1 then 0
  else (l.map (fun x => (x - mean l) ^ 2)).sum / ((l.length : ℚ) - 1)

/-- Rolling sample variance with `min_periods=1` and the `fillna(0)`. -/
def rollingVar (w : Nat) (xs : List ℚ) : List ℚ :=
  (List.range xs.length).map fun i => sampleVar (rollingWindow w xs i)

/-- Rolling sample standard deviation: the square root of the sample
variance, hence real-valued. -/
noncomputable def rollingStd (w : Nat) (xs : List ℚ) : List ℝ :=
  (rollingVar w xs).map fun v : ℚ => Real.sqrt (v : ℝ)

/-- `g["upper"] = g["rm"] + 2 * g["rstd"]`. -/
noncomputable def upperBand (w : Nat) (xs : List ℚ) : List ℝ :=
  List.zipWith (fun m s => m + 2 * s) ((rollingMean w xs).map fun q : ℚ => (q : ℝ))
    (rollingStd w xs)

/-- `g["lower"] = g["rm"] - 2 * g["rstd"]`. -/
noncomputable def lowerBand (w : Nat) (xs : List ℚ) : List ℝ :=
  List.zipWith (fun m s => m - 2 * s) ((rollingMean w xs).map fun q : ℚ => (q : ℝ))
    (rollingStd w xs)

/-- The mean of a nonempty constant window is the constant. -/
theorem mean_replicate (k : Nat) (c : ℚ) (hk : 1 ≤ k) :
    mean (List.replicate k c) = c := by
  unfold mean
  rw [List.sum_replicate, List.length_replicate, nsmul_eq_mul]
  exact mul_div_cancel_left₀ c (Nat.cast_ne_zero.mpr (by omega))

/-- A constant window has zero sample variance. -/
theorem sampleVar_replicate (k : Nat) (c : ℚ) : sampleVar (List.replicate k c) = 0 := by
  unfold sampleVar
  split
  · rfl
  · rename_i hk
    have h1 : 1 ≤ k := by simp at hk; omega
    rw [mean_replicate k c h1, List.map_replicate]
    simp

/-- A rolling window over a constant series is a constant window; for an
in-range position and `w ≥ 1` it is nonempty. -/
theorem rollingWindow_replicate (w n : Nat) (c : ℚ) (i : Nat) (hi : i < n) :
    rollingWindow w (List.replicate n c) i =
      List.replicate (i + 1 - (i + 1 - w)) c := by
  unfold rollingWindow
  rw [List.take_replicate, List.drop_replicate]
  congr 1
  omega

/-- C8: the band uses rolling mean and rolling sample standard deviation
with `min_periods=1`, so both bands carry one value per input point (the
band is defined from the first point onward); over any constant series the
rolling mean is the constant, the rolling standard deviation is zero
everywhere, and the upper and lower bands coincide with the constant - in
particular for `[10,10,10,10]` with `w=3`. -/
theorem C8_rolling_band (w n : Nat) (c : ℚ) (hw : 1 ≤ w) :
    rollingMean w (List.replicate n c) = List.replicate n c ∧
    rollingStd w (List.replicate n c) = List.replicate n 0 ∧
    upperBand w (List.replicate n c) = List.replicate n ((c : ℝ)) ∧
    lowerBand w (List.replicate n c) = List.replicate n ((c : ℝ)) ∧
    ∀ xs : List ℚ, (upperBand w xs).length = xs.length ∧
      (lowerBand w xs).length = xs.length := by
  have hmean : rollingMean w (List.replicate n c) = List.replicate n c := by
    unfold rollingMean
    rw [List.length_replicate]
    have hpt : ∀ i ∈ List.range n, mean (rollingWindow w (List.replicate n c) i) = c := by
      intro i hi
      rw [rollingWindow_replicate w n c i (List.mem_range.mp hi)]
      exact mean_replicate _ c (by omega)
    rw [List.map_congr_left hpt]
    simp
  have hvar : rollingVar w (List.replicate n c) = List.replicate n 0 := by
    unfold rollingVar
    rw [List.length_replicate]
    have hpt : ∀ i ∈ List.range n,
        sampleVar (rollingWindow w (List.replicate n c) i) = 0 := by
      intro i hi
      rw [rollingWindow_replicate w n c i (List.mem_range.mp hi)]
      exact sampleVar_replicate _ c
    rw [List.map_congr_left hpt]
    simp
  have hstd : rollingStd w (List.replicate n c) = List.replicate n 0 := by
    unfold rollingStd
    rw [hvar, List.map_replicate]
    simp
  refine ⟨hmean, hstd, ?_, ?_, ?_⟩
  · unfold upperBand
    rw [hmean, hstd, List.map_replicate, List.zipWith_replicate]
    norm_num
  · unfold lowerBand
    rw [hmean, hstd, List.map_replicate, List.zipWith_replicate]
    norm_num
  · intro xs
    constructor <;>
      simp [upperBand, lowerBand, rollingStd, rollingVar, rollingMean]

/-- C8 witness: the theorem at the spec's concrete zero-variance example,
window 3 over `[10,10,10,10]`. -/
theorem C8_rolling_band_witness :
    rollingMean 3 (List.replicate 4 (10 : ℚ)) = List.replicate 4 (10 : ℚ) ∧
    rollingStd 3 (List.replicate 4 (10 : ℚ)) = List.replicate 4 0 ∧
    upperBand 3 (List.replicate 4 (10 : ℚ)) = List.replicate 4 (((10 : ℚ) : ℝ)) ∧
    lowerBand 3 (List.replicate 4 (10 : ℚ)) = List.replicate 4 (((10 : ℚ) : ℝ)) := by
  obtain ⟨h1, h2, h3, h4, _⟩ := C8_rolling_band 3 4 10 (by omega)
  exact ⟨h1, h2, h3, h4⟩

end PMHub

namespace PMHub

/-! ### Text rounding - `components/chat_tab.py::_round_numbers_in_text`

`re.sub(r"(\d+\.\d{5,})", repl, text)` with
`repl = str(round(float(match), 4))`. The scanner below mirrors the regex
engine: at each position it tries to match a maximal digit run, a dot and a
maximal fractional digit run of at least `decimals+1` digits; on success
the match is replaced and scanning resumes after it, otherwise the
character is emitted and scanning advances one position. -/

/-- The numeric value of a decimal digit run, most significant first. -/
def digitsToNat (ds : List Char) : Nat := ds.foldl (fun a c => a * 10 + (c.toNat - 48)) 0

/-- Decimal digits of `n`, fuel-indexed so the recursion is structural;
`fuel ≥ 1 + log10 n` suffices, and `natStrChars` always passes enough. -/
def natToDigits : Nat → Nat → List Char
  | 0, _ => []
  | fuel + 1, n => if n < 10 then [Nat.digitChar n]
      else natToDigits fuel (n / 10) ++ [Nat.digitChar (n % 10)]

/-- Python `str` of a nonnegative integer. -/
def natStrChars (n : Nat) : List Char := natToDigits (n + 1) n

/-- Python `str(n)` as a Lean string. -/
def natStr (n : Nat) : String := ⟨natStrChars n⟩

/-- Drop trailing `'0'` characters (Python float `repr` omits trailing
zeros of the fraction). -/
def stripTrailingZeros (l : List Char) : List Char :=
  (l.reverse.dropWhile (fun c => c = '0')).reverse

/-- Left-pad a digit run with zeros to width `k`. -/
def padZerosTo (k : Nat) (l : List Char) : List Char :=
  List.replicate (k - l.length) '0' ++ l

/-- Round `num/den` (with `den > 0`) to the nearest integer, ties to even:
Python `round` on the exact value, in integer arithmetic. -/
def roundHalfEvenNat (num den : Nat) : Nat :=
  let q := num / den
  let r := num % den
  if 2 * r < den then q
  else if den < 2 * r then q + 1
  else if q % 2 = 0 then q else q + 1

/-- `round(float("I.F"), d)` scaled by `10^d`: the value `I.F` equals
`(I*10^k + F) / 10^k` with `k = |F|`, so the rounded value times `10^d` is
the half-even rounding of `(I*10^k + F) * 10^d / 10^k`. -/
def roundScaled (d : Nat) (intDs fracDs : List Char) : Nat :=
  roundHalfEvenNat ((digitsToNat intDs * 10 ^ fracDs.length + digitsToNat fracDs) * 10 ^ d)
    (10 ^ fracDs.length)

/-- The fractional digits of `str(round(float("I.F"), d))`: the last `d`
digits of the scaled rounded value, with trailing zeros stripped; Python
prints `"x.0"` when the fraction vanishes, keeping a single zero. -/
def roundedFracPart (d : Nat) (intDs fracDs : List Char) : List Char :=
  let fr := stripTrailingZeros (padZerosTo d (natStrChars (roundScaled d intDs fracDs % 10 ^ d)))
  if fr.isEmpty then ['0'] else fr

/-- `repl(match)` of `_round_numbers_in_text`:
`str(round(float("I.F"), d))` for the matched digit runs `I` and `F`
(`float` never raises on such a match, so the `except ValueError` branch is
dead). -/
def formatRounded (d : Nat) (intDs fracDs : List Char) : List Char :=
  natStrChars (roundScaled d intDs fracDs / 10 ^ d) ++ '.' :: roundedFracPart d intDs fracDs

/-- The `re.sub` scan over the text, fuel-indexed (the fuel is the length
of the text, enough since every step consumes at least one character). -/
def scanRound (d : Nat) : Nat → List Char → List Char
  | 0, cs => cs
  | _ + 1, [] => []
  | fuel + 1, c :: cs =>
    if c.isDigit then
      match List.span Char.isDigit (c :: cs) with
      | (_, []) => c :: scanRound d fuel cs
      | (ds, r :: rest2) =>
        if r = '.' then
          match List.span Char.isDigit rest2 with
          | (fs, rest3) =>
            if d + 1 ≤ fs.length then formatRounded d ds fs ++ scanRound d fuel rest3
            else c :: scanRound d fuel cs
        else c :: scanRound d fuel cs
    else c :: scanRound d fuel cs

/-- `chat_tab.py::_round_numbers_in_text` (the `decimals < 0` and empty
text guards return the text unchanged, which the scan also does). -/
def roundNumbersInText (text : String) (d : Nat) : String :=
  ⟨scanRound d text.data.length text.data⟩

/-- Does the text contain a match of `\d+\.\d{d+1,}` - a position where a
digit starts a maximal digit run followed by a dot and at least `d+1`
fractional digits? Mirrors the (sole) rewriting condition of `scanRound`. -/
def hasRewriteSite (d : Nat) : List Char → Bool
  | [] => false
  | c :: cs =>
    (c.isDigit &&
      match List.span Char.isDigit (c :: cs) with
      | (_, []) => false
      | (_, r :: rest2) =>
        r = '.' && decide (d + 1 ≤ (List.span Char.isDigit rest2).1.length)) ||
    hasRewriteSite d cs

/-- A text with no rewrite site is returned unchanged by the scan. -/
theorem scanRound_no_site (d : Nat) :
    ∀ (fuel : Nat) (cs : List Char), hasRewriteSite d cs = false → scanRound d fuel cs = cs := by
  intro fuel
  induction fuel with
  | zero => intro cs _; rfl
  | succ fuel ih =>
    intro cs h
    cases cs with
    | nil => rfl
    | cons c t =>
      unfold scanRound
      unfold hasRewriteSite at h
      rw [Bool.or_eq_false_iff] at h
      obtain ⟨h1, h2⟩ := h
      by_cases hd : c.isDigit
      · rw [if_pos hd]
        rcases hsp : List.span Char.isDigit (c :: t) with ⟨ds, rest1⟩
        rw [hsp] at h1
        cases rest1 with
        | nil => rw [ih t h2]
        | cons r rest2 =>
          simp only [hd, Bool.true_and] at h1
          dsimp only
          by_cases hr : r = '.'
          · rw [if_pos hr]
            rcases hsp2 : List.span Char.isDigit rest2 with ⟨fs, rest3⟩
            rw [hsp2] at h1
            simp only [hr, decide_True, Bool.true_and, decide_eq_false_iff_not] at h1
            rw [if_neg h1, ih t h2]
          · rw [if_neg hr, ih t h2]
      · rw [if_neg hd, ih t h2]

end PMHub

namespace PMHub

/-- A number below `10^k` prints with at most `k` digits (any fuel). -/
theorem natToDigits_length_le :
    ∀ (fuel n k : Nat), n < 10 ^ k → 1 ≤ k → (natToDigits fuel n).length ≤ k := by
  intro fuel
  induction fuel with
  | zero => intro n k _ _; simp [natToDigits]
  | succ fuel ih =>
    intro n k hn hk
    unfold natToDigits
    by_cases h10 : n < 10
    · rw [if_pos h10]; simpa using hk
    · rw [if_neg h10, List.length_append]
      have hk2 : 2 ≤ k := by
        by_contra hcon
        have hk1 : k = 1 := by omega
        subst hk1
        rw [pow_one] at hn
        omega
      have hpow : 10 ^ k = 10 ^ (k - 1) * 10 := by
        rw [← pow_succ]
        congr 1
        omega
      have hdiv : n / 10 < 10 ^ (k - 1) := by
        rw [Nat.div_lt_iff_lt_mul (by norm_num)]
        omega
      have := ih (n / 10) (k - 1) hdiv (by omega)
      simp only [List.length_cons, List.length_nil]
      omega

/-- Dropping a prefix cannot lengthen a list. -/
theorem dropWhile_length_le {A : Type} (p : A → Bool) :
    ∀ l : List A, (l.dropWhile p).length ≤ l.length := by
  intro l
  induction l with
  | nil => simp
  | cons a t ih =>
    rw [List.dropWhile_cons]
    split
    · exact Nat.le_succ_of_le ih
    · simp

/-- The fractional part of a rewritten number has between 1 and `d` digits
(for `d ≥ 1`): the rounded fraction is padded to `d` digits, trailing zeros
are stripped, and a lone zero is kept when nothing remains. -/
theorem roundedFracPart_length (d : Nat) (hd : 1 ≤ d) (intDs fracDs : List Char) :
    1 ≤ (roundedFracPart d intDs fracDs).length ∧
      (roundedFracPart d intDs fracDs).length ≤ d := by
  unfold roundedFracPart
  have hmlt : roundScaled d intDs fracDs % 10 ^ d < 10 ^ d :=
    Nat.mod_lt _ (by positivity)
  have hdig : (natStrChars (roundScaled d intDs fracDs % 10 ^ d)).length ≤ d :=
    natToDigits_length_le _ _ d hmlt hd
  have hpad : (padZerosTo d (natStrChars (roundScaled d intDs fracDs % 10 ^ d))).length = d := by
    unfold padZerosTo
    rw [List.length_append, List.length_replicate]
    omega
  have hstrip :
      (stripTrailingZeros (padZerosTo d (natStrChars (roundScaled d intDs fracDs % 10 ^ d)))).length ≤ d := by
    unfold stripTrailingZeros
    rw [List.length_reverse]
    calc (List.dropWhile (fun c => c = '0')
            (padZerosTo d (natStrChars (roundScaled d intDs fracDs % 10 ^ d))).reverse).length
        ≤ (padZerosTo d (natStrChars (roundScaled d intDs fracDs % 10 ^ d))).reverse.length :=
          dropWhile_length_le _ _
      _ = d := by rw [List.length_reverse, hpad]
  dsimp only
  split
  · simp only [List.length_cons, List.length_nil]
    omega
  · rename_i hne
    refine ⟨?_, hstrip⟩
    rw [List.isEmpty_iff] at hne
    have := List.length_pos.mpr hne
    omega

/-- The integer rounding used by the text rewriter agrees with the model of
Python `round` on the exact rational value. -/
theorem roundHalfEvenNat_eq_pyRoundInt (num den : Nat) (hden : 0 < den) :
    (roundHalfEvenNat num den : ℤ) = pyRoundInt ((num : ℚ) / (den : ℚ)) := by
  have hdenQ : (0 : ℚ) < (den : ℚ) := by exact_mod_cast hden
  have hfloor : ⌊(num : ℚ) / (den : ℚ)⌋ = ((num / den : ℕ) : ℤ) := by
    have h1 : ((num : ℤ) : ℚ) / ((den : ℕ) : ℚ) = (num : ℚ) / (den : ℚ) := by push_cast; ring
    rw [← h1, Rat.floor_intCast_div_natCast]
    omega
  have hfrac : (num : ℚ) / (den : ℚ) - ((num / den : ℕ) : ℚ) = ((num % den : ℕ) : ℚ) / (den : ℚ) := by
    have h' : (den : ℚ) * ((num / den : ℕ) : ℚ) + ((num % den : ℕ) : ℚ) = (num : ℚ) := by
      exact_mod_cast congrArg (fun x : ℕ => (x : ℚ)) (Nat.div_add_mod num den)
    field_simp
    linarith [h']
  have hlt : ((num % den : ℕ) : ℚ) / (den : ℚ) < 1 / 2 ↔ 2 * (num % den) < den := by
    rw [div_lt_div_iff₀ hdenQ (by norm_num : (0 : ℚ) < 2), one_mul]
    norm_cast
    omega
  have hgt : (1 : ℚ) / 2 < ((num % den : ℕ) : ℚ) / (den : ℚ) ↔ den < 2 * (num % den) := by
    rw [div_lt_div_iff₀ (by norm_num : (0 : ℚ) < 2) hdenQ, one_mul]
    norm_cast
    omega
  simp only [roundHalfEvenNat, pyRoundInt, hfloor]
  have hcast : ((((num / den : ℕ) : ℤ)) : ℚ) = ((num / den : ℕ) : ℚ) := Int.cast_natCast _
  rw [hcast, hfrac]
  by_cases h1 : 2 * (num % den) < den
  · rw [if_pos h1, if_pos (hlt.mpr h1)]
  · rw [if_neg h1, if_neg (fun hc => h1 (hlt.mp hc))]
    by_cases h2 : den < 2 * (num % den)
    · rw [if_pos h2, if_pos (hgt.mpr h2)]
      push_cast
      ring
    · rw [if_neg h2, if_neg (fun hc => h2 (hgt.mp hc))]
      by_cases h3 : num / den % 2 = 0
      · rw [if_pos h3, if_pos (by omega : ((num / den : ℕ) : ℤ) % 2 = 0)]
      · rw [if_neg h3, if_neg (by omega : ¬ ((num / den : ℕ) : ℤ) % 2 = 0)]
        push_cast
        ring

end PMHub

namespace PMHub

/-- C7 counterexample: `"value 1.000001"` has more than 4 digits after the
decimal point, but the rewritten text is `"value 1.0"` - the rounded value
is printed without trailing zeros, so the number is NOT rewritten to
exactly 4 digits after the decimal point (`"value 1.0000"`). -/
theorem C7_counterexample :
    roundNumbersInText "value 1.000001" 4 = "value 1.0" ∧
    roundNumbersInText "value 1.000001" 4 ≠ "value 1.0000" := by
  constructor
  · rfl
  · decide

/-- C7 (amended): with `decimal_places = 4`, every free-standing decimal
number with more than 4 fractional digits is rewritten to its value rounded
(half-to-even) to 4 decimal places, printed with trailing zeros dropped -
so with at least 1 and at most 4 digits after the decimal point, not always
exactly 4; a text whose numbers all have 4 or fewer fractional digits is
left entirely unchanged; `"failure rate is 0.039212345"` becomes
`"failure rate is 0.0392"` (the original digit string is gone) and
`"value 1.2"` is unchanged. -/
theorem C7_amended_thm (text : String) (hsite : hasRewriteSite 4 text.data = false) :
    roundNumbersInText text 4 = text ∧
    (∀ intDs fracDs : List Char, 1 ≤ (roundedFracPart 4 intDs fracDs).length ∧
      (roundedFracPart 4 intDs fracDs).length ≤ 4) ∧
    roundNumbersInText "failure rate is 0.039212345" 4 = "failure rate is 0.0392" ∧
    roundNumbersInText "value 1.2" 4 = "value 1.2" := by
  refine ⟨?_, fun i f => roundedFracPart_length 4 (by omega) i f, by rfl, by rfl⟩
  unfold roundNumbersInText
  rw [scanRound_no_site 4 text.data.length text.data hsite]

/-- C7 witness: the amended theorem applied to the concrete text
`"value 1.2"` (no rewrite site) and the fraction-length bound at the digit
runs of `1.000001`. -/
theorem C7_amended_witness :
    roundNumbersInText "value 1.2" 4 = "value 1.2" ∧
    1 ≤ (roundedFracPart 4 ['1'] ['0', '0', '0', '0', '0', '1']).length ∧
    (roundedFracPart 4 ['1'] ['0', '0', '0', '0', '0', '1']).length ≤ 4 := by
  obtain ⟨h1, h2, _, _⟩ := C7_amended_thm "value 1.2" (by rfl)
  exact ⟨h1, (h2 ['1'] ['0', '0', '0', '0', '0', '1']).1,
         (h2 ['1'] ['0', '0', '0', '0', '0', '1']).2⟩

end PMHub

namespace PMHub

/-! ### Inline table rendering - `components/chat_tab.py::_df_to_markdown_table`
and the attachment step of `respond` (lines 162-167). -/

/-- A result table: column names and rows of already-stringified cells
(one cell per column, in column order, as the code's
`str(row[c]) for c in cols` produces). -/
structure DataFrame where
  cols : List String
  rows : List (List String)
deriving DecidableEq

/-- Cell/column escaping: `str(x).replace("|", "\\|")`. -/
def escapeCell (s : String) : String := s.replace "|" "\\|"

/-- `"| " + " | ".join(escaped column names) + " |"`. -/
def headerLine (cols : List String) : String :=
  "| " ++ String.intercalate " | " (cols.map escapeCell) ++ " |"

/-- `"| " + " | ".join("---" for _ in cols) + " |"`. -/
def dividerLine (cols : List String) : String :=
  "| " ++ String.intercalate " | " (cols.map fun _ => "---") ++ " |"

/-- The rendered data-row lines: one line per row of `df.head(max_rows)`. -/
def renderedRows (df : DataFrame) (maxRows : Nat) : List String :=
  (df.rows.take maxRows).map fun r =>
    "| " ++ String.intercalate " | " (r.map escapeCell) ++ " |"

/-- `chat_tab.py::_df_to_markdown_table`: empty or absent table gives `""`;
otherwise header, divider and at most `max_rows` row lines joined by
newlines, plus the literal truncation note
`"\n_… and {len(df) - max_rows} more row(s)._"` when rows were cut. -/
def dfToMarkdownTable (df : Option DataFrame) (maxRows : Nat) : String :=
  match df with
  | none => ""
  | some d =>
    if d.rows.length = 0 then ""
    else
      let table := String.intercalate "\n"
        (headerLine d.cols :: dividerLine d.cols :: renderedRows d maxRows)
      if maxRows < d.rows.length then
        table ++ "\n_… and " ++ natStr (d.rows.length - maxRows) ++ " more row(s)._"
      else table

/-- The attachment step of `respond`: the assistant message is the reply
text alone unless a non-empty display table renders to a non-empty
markdown table, which is appended after a blank line. -/
def attachTable (reply : String) (displayDf : Option DataFrame) : String :=
  match displayDf with
  | none => reply
  | some d =>
    if 0 < d.rows.length then
      let tableMd := dfToMarkdownTable (some d) 25
      if tableMd ≠ "" then reply ++ "\n\n" ++ tableMd else reply
    else reply

/-- C9: with `max_inline_rows = 25` the inline rendering contains at most
25 data-row lines (exactly `min(len(df), 25)`); when the table has more
than 25 rows the literal `"and N more row(s)"` note with
`N = len(df) - 25` is appended (and not otherwise); an empty or absent
table renders as the empty string and leaves the reply text alone. -/
theorem C9_inline_table (d : DataFrame) (reply : String) :
    (renderedRows d 25).length = min d.rows.length 25 ∧
    (renderedRows d 25).length ≤ 25 ∧
    (25 < d.rows.length →
      dfToMarkdownTable (some d) 25 =
        String.intercalate "\n"
            (headerLine d.cols :: dividerLine d.cols :: renderedRows d 25) ++
          "\n_… and " ++ natStr (d.rows.length - 25) ++ " more row(s)._") ∧
    (0 < d.rows.length → d.rows.length ≤ 25 →
      dfToMarkdownTable (some d) 25 =
        String.intercalate "\n"
          (headerLine d.cols :: dividerLine d.cols :: renderedRows d 25)) ∧
    (d.rows = [] →
      dfToMarkdownTable (some d) 25 = "" ∧ attachTable reply (some d) = reply) ∧
    attachTable reply none = reply := by
  refine ⟨?_, ?_, ?_, ?_, ?_, rfl⟩
  · rw [renderedRows, List.length_map, List.length_take]
    omega
  · rw [renderedRows, List.length_map, List.length_take]
    omega
  · intro h
    unfold dfToMarkdownTable
    dsimp only
    rw [if_neg (by omega : ¬ d.rows.length = 0), if_pos h]
  · intro h0 h25
    unfold dfToMarkdownTable
    dsimp only
    rw [if_neg (by omega : ¬ d.rows.length = 0), if_neg (by omega : ¬ 25 < d.rows.length)]
  · intro h
    have h0 : d.rows.length = 0 := by rw [h]; rfl
    constructor
    · unfold dfToMarkdownTable
      dsimp only
      rw [if_pos h0]
    · unfold attachTable
      dsimp only
      rw [if_neg (by omega : ¬ 0 < d.rows.length)]

/-- C9 witness: the theorem at a 26-row frame (one row beyond the cap) and
at an empty frame. -/
theorem C9_inline_table_witness :
    dfToMarkdownTable (some ⟨["c"], List.replicate 26 ["x"]⟩) 25 =
      String.intercalate "\n"
          (headerLine ["c"] :: dividerLine ["c"] ::
            renderedRows ⟨["c"], List.replicate 26 ["x"]⟩ 25) ++
        "\n_… and " ++ natStr 1 ++ " more row(s)._" ∧
    dfToMarkdownTable (some ⟨["c"], []⟩) 25 = "" ∧
    attachTable "text only" (some ⟨["c"], []⟩) = "text only" := by
  have h1 := (C9_inline_table ⟨["c"], List.replicate 26 ["x"]⟩ "text only").2.2.1 (by decide)
  have h2 := (C9_inline_table ⟨["c"], []⟩ "text only").2.2.2.2.1 rfl
  exact ⟨h1, h2.1, h2.2⟩

end PMHub

namespace PMHub

/-! ### Chat submission - `components/chat_tab.py::respond` -/

/-- Python `str.strip()`: whitespace removed from both ends. -/
def pyStrip (s : String) : String :=
  ⟨((s.data.dropWhile Char.isWhitespace).reverse.dropWhile Char.isWhitespace).reverse⟩

/-- Python `str.capitalize()`: first character upper-cased, the rest
lower-cased. -/
def pyCapitalize (s : String) : String :=
  match s.data with
  | [] => ""
  | c :: cs => ⟨c.toUpper :: cs.map Char.toLower⟩

/-- The assistant backend reply contract
(`ai_service.chat_with_data` result). The reply text is modelled as the
already-normalised display string (the dict/list coercions of lines
139-144 collapse to it). -/
structure AIResult where
  text : String
  error : Bool
  dataframe : Option DataFrame
  source : String
  sql : Option String
  conversation_id : Option String

/-- What one call of `respond` produces: the four Gradio outputs plus the
observable effects - how many CHAT audit events were logged and how many
assistant-backend calls were made. -/
structure RespondResult where
  history : List ChatMsg
  msgBox : String
  convId : Option String
  sourceLabel : String
  chatEvents : Nat
  backendCalls : Nat
deriving DecidableEq

/-- `chat_tab.py::respond`, with the backend passed as a function `ai`.
A stripped-empty or over-2000-character message returns immediately with
the history, the stripped message and the conversation id, no backend call
and no audit event. Otherwise the backend is called once, one CHAT event is
logged, `_round_df_decimals` is the identity on the string-cell table
model, and the reply (apology text on `error`, `"No response."` when blank)
is number-rounded and gets the inline table attached. -/
def respond (ai : String → Option String → AIResult) (message : String)
    (history : List ChatMsg) (convId : Option String) : RespondResult :=
  let message := pyStrip message
  if message = "" ∨ 2000 < message.length then
    ⟨history, message, convId, "", 0, 0⟩
  else
    let result := ai message convId
    let rawReply := if result.error then
        "Sorry, I could not answer that question. Please try rephrasing it."
      else result.text
    let reply0 := pyStrip rawReply
    let reply1 := if reply0 = "" then "No response." else reply0
    let reply := roundNumbersInText reply1 4
    let displayDf := match result.dataframe with
      | some d => if 0 < d.rows.length then some d else none
      | none => none
    let assistantContent := attachTable reply displayDf
    ⟨history ++ [⟨"user", message⟩, ⟨"assistant", assistantContent⟩], "",
     result.conversation_id,
     "_Answered by: **" ++ pyCapitalize result.source ++ "**_",
     1, 1⟩

/-- C10: when the stripped message is empty or longer than 2000
characters, `respond` makes no backend call, logs no audit event, and
returns the chat history and conversation id exactly as passed in; only the
message box (now holding the stripped message) and the source label (now
empty) change. -/
theorem C10_respond_guard (ai : String → Option String → AIResult)
    (message : String) (history : List ChatMsg) (convId : Option String)
    (h : pyStrip message = "" ∨ 2000 < (pyStrip message).length) :
    respond ai message history convId =
      ⟨history, pyStrip message, convId, "", 0, 0⟩ := by
  unfold respond
  rw [if_pos h]

/-- C10 witness: the theorem applied to a whitespace-only message and a
concrete backend. -/
theorem C10_respond_guard_witness :
    respond (fun _ _ => ⟨"hi", false, none, "genie", none, some "c1"⟩) "   " [] none =
      ⟨[], pyStrip "   ", none, "", 0, 0⟩ :=
  C10_respond_guard (fun _ _ => ⟨"hi", false, none, "genie", none, some "c1"⟩)
    "   " [] none (Or.inl (by rfl))

end PMHub
